import Mathlib

/-!
Verification development for the `OliVideoFrameLimit` frame-budgeting node
(`video_frame_limit.py`): a shallow embedding of `_safe_getattr`,
`_get_model_info` and `OliVideoFrameLimit.execute`, together with theorems
about the introspection search, the byte-cost model, the stride snapping and
the no-device path.

Modelling conventions:
* Python `int` is `Int`; Python `float` inputs (`fps`, `duration`,
  `safety_margin`, device memory) are modelled as `ℚ` with exact arithmetic.
  All concrete inputs used below are exactly representable in binary64 or
  give results far from rounding boundaries, so the `ℚ` model agrees with
  the float computation on them.
* Python `//` (floor division) is `Int.fdiv`; Python `int(x)` on a float is
  truncation toward zero (`pyTrunc`); Python `round` is round-half-to-even
  (`pyRound`).
* A model handle is an opaque object graph (`PyGraph`): objects are numbered,
  and the two attribute-access primitives the source uses are modelled
  separately: `attrs` is plain `getattr(obj, a, None)` (which returns the
  default only on `AttributeError`; any other exception raised by a
  `__getattr__` hook or a property getter propagates, modelled as `none`
  at the graph level and `Except.error` in the embedding), and `safeAttrs`
  is `_safe_getattr` (which reads `__dict__` and the MRO directly, catches
  property-getter exceptions, and therefore never raises: total).
* `sum(p.numel() for p in m.parameters())` wrapped in `try/except` is
  `paramsNumel : Nat → Option Nat` (`none` = the whole fallback raised).
* Python dict keys in `found` are f-strings `obj.attr` / `obj.cfg.attr`;
  since Python type names contain no dots, these strings are in bijection
  with the structured `Label` records used here, which keep the dict
  (insertion-order, overwrite-in-place) semantics exact.
* Identity (`is`) of two distinct non-object values is implementation
  defined in Python; the embedding treats only object references as
  possibly identical, which is unobservable in this code (integers carry
  no probed attributes).
-/

/-- Executable floor of a rational (`⌊x⌋`, see `pyFloor_eq`). -/
def pyFloor (x : ℚ) : Int := x.num / (x.den : Int)

theorem pyFloor_eq (x : ℚ) : pyFloor x = ⌊x⌋ := Rat.floor_def.symm

/-- Python `int(x)` for a float value: truncation toward zero. -/
def pyTrunc (x : ℚ) : Int :=
  if 0 ≤ x then pyFloor x else -pyFloor (-x)

/-- Python `round(x)` for a float value: round half to even. -/
def pyRound (x : ℚ) : Int :=
  if x - pyFloor x < 1/2 then pyFloor x
  else if 1/2 < x - pyFloor x then pyFloor x + 1
  else if pyFloor x % 2 = 0 then pyFloor x else pyFloor x + 1

instance {ε α : Type} [DecidableEq ε] [DecidableEq α] :
    DecidableEq (Except ε α) := fun x y =>
  match x, y with
  | .ok a, .ok b =>
    if h : a = b then .isTrue (congrArg Except.ok h)
    else .isFalse (fun he => h (Except.ok.inj he))
  | .error a, .error b =>
    if h : a = b then .isTrue (congrArg Except.error h)
    else .isFalse (fun he => h (Except.error.inj he))
  | .ok _, .error _ => .isFalse (fun he => Except.noConfusion he)
  | .error _, .ok _ => .isFalse (fun he => Except.noConfusion he)

/-- A value stored in a model-handle attribute: an integer or a reference to
another object of the graph.  (Other value kinds — strings, floats, tensors —
behave, for every probe this code performs, like an object with no matching
attributes, so they are represented as objects.) -/
inductive PyVal where
  | vint : Int → PyVal
  | vobj : Nat → PyVal
deriving DecidableEq, Repr

/-- The opaque model-handle object graph (externally owned, never mutated). -/
structure PyGraph where
  /-- `type(obj).__name__` -/
  objClass : Nat → String
  /-- plain `getattr(obj, a, None)`: `none` = the access raised an exception
  other than `AttributeError` (propagates); `some none` = absent or `None`;
  `some (some v)` = present with value `v`. -/
  attrs : Nat → String → Option (Option PyVal)
  /-- `_safe_getattr(obj, a)`: reads `__dict__` and class fields directly,
  catches property-getter exceptions — total, never raises. -/
  safeAttrs : Nat → String → Option PyVal
  /-- `bool(obj)` for an object reference. -/
  truthy : Nat → Bool
  /-- `sum(p.numel() for p in obj.parameters())`; `none` = raised (caught). -/
  paramsNumel : Nat → Option Nat

/-- Exceptions the embedded code can propagate. -/
inductive PyErr where
  | attrRaise
  | zeroDiv
deriving DecidableEq, Repr

/-- `type(v).__name__`. -/
def pyClassName (G : PyGraph) : PyVal → String
  | .vobj i => G.objClass i
  | .vint _ => "int"

/-- `_safe_getattr(v, a)` lifted to values: an `int` has none of the probed
attributes. -/
def safeGet (G : PyGraph) : PyVal → String → Option PyVal
  | .vobj i, a => G.safeAttrs i a
  | .vint _, _ => none

/-- plain `getattr(v, a, None)` lifted to values. -/
def pyGetattr (G : PyGraph) : PyVal → String → Except PyErr (Option PyVal)
  | .vobj i, a =>
    match G.attrs i a with
    | some r => .ok r
    | none => .error .attrRaise
  | .vint _, _ => .ok none

/-- Python `is` identity between attribute values: object references are
identical iff they are the same node; distinct primitive occurrences are
treated as non-identical (unobservable here, see header). -/
def pyIs : PyVal → PyVal → Bool
  | .vobj i, .vobj j => i == j
  | _, _ => false

/-- `bool(v)`. -/
def pyTruthy (G : PyGraph) : PyVal → Bool
  | .vint n => n != 0
  | .vobj i => G.truthy i

def TENSOR_COPIES : Int := 5
def TEMPORAL_COMPRESSION : Int := 4

def DIM_ATTRS : List String :=
  ["hidden_size", "dim", "embed_dim", "hidden_dim",
   "d_model", "inner_dim", "width", "model_dim"]

def CFG_ATTRS : List String := ["config", "model_config"]

def UNWRAP_ATTRS : List String := ["model", "diffusion_model"]

def SEARCH_ATTRS : List String :=
  ["diffusion_model", "transformer", "model", "net", "backbone"]

/-- `isinstance(val, int) and 64 <= val <= 32768`. -/
def inRangeB (n : Int) : Bool := decide (64 ≤ n) && decide (n ≤ 32768)

/-- A key of the `found` dict: the f-string `obj_name.attr` or
`obj_name.cfg_attr.attr` kept structurally (Python type names contain no
dots, so the f-strings are in bijection with these records). -/
structure Label where
  objName : String
  cfg : Option String
  attr : String
deriving DecidableEq, Repr

/-- `found[key] = val` with Python dict semantics: an existing key keeps its
position and gets its value overwritten; a new key is appended. -/
def dictInsert (d : List (Label × Int)) (k : Label) (v : Int) :
    List (Label × Int) :=
  if d.any (fun p => decide (p.1 = k)) then
    d.map (fun p => if p.1 = k then (k, v) else p)
  else d ++ [(k, v)]

/-- One unwrap step: `sub = getattr(m, acc, None); if sub is not None: m = sub`. -/
def unwrapStep (G : PyGraph) (m : PyVal) (acc : String) :
    Except PyErr PyVal := do
  let sub ← pyGetattr G m acc
  pure (sub.getD m)

/-- The `for accessor in ("model", "diffusion_model")` unwrap loop. -/
def unwrap (G : PyGraph) (m0 : PyVal) : Except PyErr PyVal :=
  UNWRAP_ATTRS.foldlM (unwrapStep G) m0

/-- One iteration of the search-set loop:
`if sub is not None and sub is not m: search.append(sub)`. -/
def addSearch (G : PyGraph) (m : PyVal) (acc : List PyVal) (a : String) :
    Except PyErr (List PyVal) := do
  let sub ← pyGetattr G m a
  pure (match sub with
        | some s => if pyIs s m then acc else acc ++ [s]
        | none => acc)

/-- `search = [m]` plus the sub-objects found through `SEARCH_ATTRS`. -/
def buildSearch (G : PyGraph) (m : PyVal) : Except PyErr (List PyVal) :=
  SEARCH_ATTRS.foldlM (addSearch G m) [m]

/-- One probe of the inner `for attr in DIM_ATTRS` loop: record an in-range
integer hit into `found`, leave `found` unchanged otherwise. -/
def dimStep (G : PyGraph) (objName : String) (cfg : Option String) (o : PyVal)
    (d : List (Label × Int)) (a : String) : List (Label × Int) :=
  match safeGet G o a with
  | some (.vint v) => if inRangeB v then dictInsert d ⟨objName, cfg, a⟩ v else d
  | _ => d

/-- The inner `for attr in DIM_ATTRS` loop over one object (or config). -/
def scanDims (G : PyGraph) (objName : String) (cfg : Option String)
    (o : PyVal) (d : List (Label × Int)) : List (Label × Int) :=
  DIM_ATTRS.foldl (dimStep G objName cfg o) d

/-- One iteration of the `for cfg_attr in ("config", "model_config")` loop:
scan the width attributes of a truthy configuration object. -/
def cfgStep (G : PyGraph) (objName : String) (o : PyVal)
    (d : List (Label × Int)) (c : String) : List (Label × Int) :=
  match safeGet G o c with
  | some cfgv => if pyTruthy G cfgv then scanDims G objName (some c) cfgv d else d
  | none => d

/-- The body of `for obj in search`: direct attributes, then the two
configuration accessors of the same object. -/
def scanObj (G : PyGraph) (o : PyVal) (d : List (Label × Int)) :
    List (Label × Int) :=
  let objName := pyClassName G o
  CFG_ATTRS.foldl (cfgStep G objName o) (scanDims G objName none o d)

/-- The complete `found` dict after the `for obj in search` loop. -/
def buildFound (G : PyGraph) (search : List PyVal) : List (Label × Int) :=
  search.foldl (fun d o => scanObj G o d) []

/-- An entry of `debug_lines`. -/
inductive TraceEntry where
  | hit : Label → Int → TraceEntry
  | estimate : Int → TraceEntry
deriving DecidableEq, Repr

/-- The `(class_name, hidden_dim, debug_lines)` triple `_get_model_info`
returns. -/
structure ModelInfo where
  name : Option String
  hiddenDim : Option Int
  trace : List TraceEntry
deriving DecidableEq, Repr

def STANDARD_WIDTHS : List Int :=
  [256, 512, 768, 1024, 1280, 1536, 2048, 3072, 4096, 5120, 8192]

/-- `min(standards, key=lambda x: abs(x - est))`: Python `min` keeps the
first element on ties. -/
def closestStandard (est : Int) : Int :=
  (STANDARD_WIDTHS.drop 1).foldl
    (fun best x => if |x - est| < |best - est| then x else best) 256

/-- Newton iteration for the integer square root, with explicit fuel so that
it is structurally recursive (and therefore evaluable by the kernel).  The
guess strictly decreases on every recursive call, so any fuel at least the
initial guess gives the exact floor square root. -/
def isqrtIter (n : Nat) : Nat → Nat → Nat
  | 0, guess => guess
  | fuel + 1, guess =>
    let next := (guess + n / guess) / 2
    if next < guess then isqrtIter n fuel next else guess

/-- Integer square root `⌊√n⌋` (Newton's method, executable). -/
def isqrt (n : Nat) : Nat :=
  if n ≤ 1 then n else isqrtIter n n (n / 2)

/-- `int((n / (12 * 28)) ** 0.5)` snapped to the table: exact-arithmetic model
of the float expression, using `⌊√⌊n/336⌋⌋ = ⌊√(n/336)⌋`. -/
def paramEstimate (n : Nat) : Int :=
  closestStandard (Int.ofNat (isqrt (n / 336)))

/-- `_get_model_info(model)` from `video_frame_limit.py`. -/
def get_model_info (G : PyGraph) (model : Option PyVal) :
    Except PyErr ModelInfo :=
  match model with
  | none => .ok ⟨none, none, []⟩
  | some m0 =>
    match unwrap G m0 with
    | .error e => .error e
    | .ok m =>
      match buildSearch G m with
      | .error e => .error e
      | .ok search =>
        let modelName := pyClassName G m
        let found := buildFound G search
        match found with
        | (_, v) :: _ =>
          .ok ⟨some modelName, some v, found.map (fun p => .hit p.1 p.2)⟩
        | [] =>
          match m with
          | .vobj i =>
            match G.paramsNumel i with
            | some n =>
              let hd := paramEstimate n
              .ok ⟨some modelName, some hd, [.estimate hd]⟩
            | none => .ok ⟨some modelName, none, []⟩
          | .vint _ => .ok ⟨some modelName, none, []⟩

/-- The structured content of `execute`'s return value: the `result` tuple
`(width, height, frames, fps, duration)` plus the quantities the `info`
diagnostic string is built from (`modelLabel`/`hiddenDim` are `none` on the
no-device path, whose diagnostic says only that no limit was applied). -/
structure ExecResult where
  width : Int
  height : Int
  frames : Int
  fps : ℚ
  duration : ℚ
  modelLabel : Option String
  hiddenDim : Option Int
  requested : Int
deriving DecidableEq, Repr

/-- `max(1, round(duration * fps) + 1)`. -/
def requestedFrames (duration fps : ℚ) : Int :=
  max 1 (pyRound (duration * fps) + 1)

/-- `snap(f)` from `execute`. -/
def snap (f : Int) : Int :=
  max 1 ((f - 1).fdiv TEMPORAL_COMPRESSION * TEMPORAL_COMPRESSION + 1)

/-- `(width // 8) * (height // 8)`. -/
def spatialTokens (w h : Int) : Int := w.fdiv 8 * h.fdiv 8

/-- The device-present path of `execute` (lines after the
`torch.cuda.is_available()` check), as a function of the `_get_model_info`
triple: the fallback to `hidden_dim = 1536` / label `"generic"`, the choice
between the latent-frame and the no-compression byte-cost, the stride snap,
and the final duration.  A zero `bytes_per_frame` or a zero `fps` raises
`ZeroDivisionError` exactly where the source divides. -/
def limitedResult (info : ModelInfo) (w h : Int) (d fps sm c : ℚ) :
    Except PyErr ExecResult :=
  let requested := requestedFrames d fps
  let vram_budget := c * sm
  let dim_detected := info.hiddenDim.isSome
  let hidden_dim := info.hiddenDim.getD 1536
  let model_label :=
    if dim_detected then
      match info.name with
      | some s => if s = "" then "connected" else s
      | none => "connected"
    else "generic"
  let spatial := spatialTokens w h
  let maxPhysE : Except PyErr Int :=
    if dim_detected then
      let bplf := TENSOR_COPIES * spatial * hidden_dim * 2
      if bplf = 0 then .error PyErr.zeroDiv
      else .ok ((max 1 (pyTrunc (vram_budget / (bplf : ℚ))) - 1)
                  * TEMPORAL_COMPRESSION + 1)
    else
      let bpf := TENSOR_COPIES * spatial * hidden_dim * 2
      if bpf = 0 then .error PyErr.zeroDiv
      else .ok (max 1 (pyTrunc (vram_budget / (bpf : ℚ))))
  match maxPhysE with
  | .error e => .error e
  | .ok maxPhys =>
    let actual := snap (min requested maxPhys)
    if fps = 0 then .error PyErr.zeroDiv
    else
      .ok ⟨w, h, actual, fps, (actual - 1 : Int) / fps,
           some model_label, some hidden_dim, requested⟩

/-- `OliVideoFrameLimit.execute`.  `cudaTotalMem` is
`torch.cuda.get_device_properties(0).total_memory` when
`torch.cuda.is_available()`, else `none` (in which case the function returns
`requested_frames` and the caller-supplied duration unchanged). -/
def execute (G : PyGraph) (model : Option PyVal) (width height : Int)
    (duration fps safety_margin : ℚ) (cudaTotalMem : Option ℚ) :
    Except PyErr ExecResult :=
  let requested := requestedFrames duration fps
  match cudaTotalMem with
  | none => .ok ⟨width, height, requested, fps, duration, none, none, requested⟩
  | some total_vram =>
    match get_model_info G model with
    | .error e => .error e
    | .ok info => limitedResult info width height duration fps safety_margin total_vram

/-! ### Concrete model-handle graphs used as test inputs -/

/-- A handle with no attributes at all (every plain access returns the
default, every safe access misses, parameter enumeration raises). -/
def emptyG : PyGraph where
  objClass := fun _ => "X"
  attrs := fun _ _ => some none
  safeAttrs := fun _ _ => none
  truthy := fun _ => true
  paramsNumel := fun _ => none

/-- A handle whose single object exposes `hidden_size = 1536` directly. -/
def G8 : PyGraph where
  objClass := fun _ => "WanModel"
  attrs := fun _ _ => some none
  safeAttrs := fun i a =>
    if i = 0 ∧ a = "hidden_size" then some (.vint 1536) else none
  truthy := fun _ => true
  paramsNumel := fun _ => none

/-- Object 0 (`Outer`) has no direct width attribute but a config (object 2)
with `hidden_size = 128`; its sub-object 1 (`Inner`, reached through
`transformer`) has a direct `hidden_size = 1536`. -/
def G5 : PyGraph where
  objClass := fun i => if i = 0 then "Outer" else if i = 1 then "Inner" else "Cfg"
  attrs := fun i a =>
    if i = 0 ∧ a = "transformer" then some (some (.vobj 1)) else some none
  safeAttrs := fun i a =>
    if i = 0 ∧ a = "config" then some (.vobj 2)
    else if i = 2 ∧ a = "hidden_size" then some (.vint 128)
    else if i = 1 ∧ a = "hidden_size" then some (.vint 1536)
    else none
  truthy := fun _ => true
  paramsNumel := fun _ => none

/-- A handle whose `model` attribute access raises an exception other than
`AttributeError` (e.g. a property getter or `__getattr__` hook that throws):
plain `getattr(m, "model", None)` propagates it. -/
def Gbad : PyGraph where
  objClass := fun _ => "Bad"
  attrs := fun _ a => if a = "model" then none else some none
  safeAttrs := fun _ _ => none
  truthy := fun _ => true
  paramsNumel := fun _ => some 0

/-- A handle with no width attribute anywhere but an enumerable parameter
set of `336 * 1536 ^ 2 = 792723456` elements, so the parameter-count
fallback estimates `hidden_dim = 1536` exactly (all float steps exact). -/
def Gest : PyGraph where
  objClass := fun _ => "Mystery"
  attrs := fun _ _ => some none
  safeAttrs := fun _ _ => none
  truthy := fun _ => true
  paramsNumel := fun _ => some 792723456

/-! ### Definitions modelled from the spec's words (for refinement claims) -/

/-- Modelled from the spec: the no-temporal-compression budget the spec
reserves for the parameter-estimate / none paths —
`bytes_per_frame = TENSOR_COPIES × spatial_tokens × hidden_dim × 2`,
`max_physical_frames = max(1, floor(budget_bytes / bytes_per_frame))`,
then the stride snap of `min(requested, max_physical_frames)`. -/
def specGenericFrames (w h hd : Int) (duration fps budget : ℚ) : Int :=
  snap (min (requestedFrames duration fps)
    (max 1 (pyTrunc (budget / ((TENSOR_COPIES * spatialTokens w h * hd * 2 : Int) : ℚ)))))

/-- First in-range integer among the direct width attributes of one object,
in `DIM_ATTRS` order. -/
def firstDimAttr (G : PyGraph) (o : PyVal) : Option Int :=
  DIM_ATTRS.findSome? (fun a =>
    match safeGet G o a with
    | some (.vint v) => if inRangeB v then some v else none
    | _ => none)

/-- First in-range integer among the width attributes of one object's
configuration accessors, in `CFG_ATTRS` then `DIM_ATTRS` order. -/
def firstCfgDimAttr (G : PyGraph) (o : PyVal) : Option Int :=
  CFG_ATTRS.findSome? (fun c =>
    match safeGet G o c with
    | some cfgv => if pyTruthy G cfgv then firstDimAttr G cfgv else none
    | none => none)

/-- Modelled from the spec: the two-phase search the claim describes — scan
the direct width attributes of every search-set object in order, stopping at
the first in-range hit; only if that whole scan found nothing, scan the
configuration accessors of each object, again stopping at the first hit. -/
def specTwoPhaseHidden (G : PyGraph) (search : List PyVal) : Option Int :=
  match search.findSome? (firstDimAttr G) with
  | some v => some v
  | none => search.findSome? (firstCfgDimAttr G)

/-! ### General lemmas about the embedded code -/

theorem fdiv_nonneg_divisor (a : Int) : a.fdiv 4 = a / 4 :=
  Int.fdiv_eq_ediv a (by omega)

theorem fdiv_eight (a : Int) : a.fdiv 8 = a / 8 :=
  Int.fdiv_eq_ediv a (by omega)

theorem snap_eq (f : Int) : snap f = max 1 ((f - 1) / 4 * 4 + 1) := by
  unfold snap TEMPORAL_COMPRESSION
  rw [Int.fdiv_eq_ediv _ (by omega)]

theorem snap_pos (f : Int) : 1 ≤ snap f := by
  rw [snap_eq]; omega

theorem snap_le_self (f : Int) (hf : 1 ≤ f) : snap f ≤ f := by
  rw [snap_eq]
  have h := Int.ediv_mul_le (f - 1) (b := 4) (by omega)
  omega

theorem snap_mono {f g : Int} (h : f ≤ g) : snap f ≤ snap g := by
  rw [snap_eq, snap_eq]
  have := Int.ediv_le_ediv (a := f - 1) (b := g - 1) (c := 4) (by omega) (by omega)
  omega

theorem snap_stride (f : Int) : (snap f - 1) % 4 = 0 := by
  rw [snap_eq]; omega

theorem requestedFrames_pos (d fps : ℚ) : 1 ≤ requestedFrames d fps :=
  le_max_left 1 _

theorem pyTrunc_mono {x y : ℚ} (h : x ≤ y) : pyTrunc x ≤ pyTrunc y := by
  unfold pyTrunc
  simp only [pyFloor_eq]
  by_cases hx : (0 : ℚ) ≤ x <;> by_cases hy : (0 : ℚ) ≤ y
  · rw [if_pos hx, if_pos hy]; exact Int.floor_mono h
  · exact absurd (hx.trans h) hy
  · rw [if_neg hx, if_pos hy]
    have h1 : 0 ≤ ⌊y⌋ := Int.floor_nonneg.mpr hy
    have h2 : 0 ≤ ⌊-x⌋ := Int.floor_nonneg.mpr (by linarith)
    omega
  · rw [if_neg hx, if_neg hy]
    have := Int.floor_mono (neg_le_neg h)
    omega

theorem execute_some_eq {G : PyGraph} {model : Option PyVal} {info : ModelInfo}
    (w h : Int) (d fps sm c : ℚ)
    (hinfo : get_model_info G model = .ok info) :
    execute G model w h d fps sm (some c) = limitedResult info w h d fps sm c := by
  unfold execute
  rw [hinfo]

theorem execute_some_err {G : PyGraph} {model : Option PyVal} {e : PyErr}
    (w h : Int) (d fps sm c : ℚ)
    (hinfo : get_model_info G model = .error e) :
    execute G model w h d fps sm (some c) = .error e := by
  unfold execute
  rw [hinfo]

theorem mem_dictInsert {d : List (Label × Int)} {k : Label} {v : Int}
    {q : Label × Int} (hq : q ∈ dictInsert d k v) : q ∈ d ∨ q = (k, v) := by
  unfold dictInsert at hq
  split at hq
  · rcases List.mem_map.mp hq with ⟨p, hp, hpq⟩
    by_cases h : p.1 = k
    · right; rw [← hpq]; simp [h]
    · left; rw [← hpq]; simp only [if_neg h]; exact hp
  · rcases List.mem_append.mp hq with h | h
    · left; exact h
    · right; simpa using h

theorem dimStep_inrange {G : PyGraph} {n : String} {c : Option String}
    {o : PyVal} {d : List (Label × Int)}
    (hd : ∀ p ∈ d, inRangeB p.2 = true) (a : String) :
    ∀ p ∈ dimStep G n c o d a, inRangeB p.2 = true := by
  intro p hp
  cases hsg : safeGet G o a with
  | none => simp only [dimStep, hsg] at hp; exact hd p hp
  | some w =>
    cases w with
    | vobj i => simp only [dimStep, hsg] at hp; exact hd p hp
    | vint v =>
      simp only [dimStep, hsg] at hp
      by_cases hv : inRangeB v
      · rw [if_pos hv] at hp
        rcases mem_dictInsert hp with h | h
        · exact hd p h
        · rw [h]; exact hv
      · rw [if_neg hv] at hp; exact hd p hp

theorem foldl_dimStep_inrange (G : PyGraph) (n : String) (c : Option String)
    (o : PyVal) : ∀ (l : List String) (d : List (Label × Int)),
    (∀ p ∈ d, inRangeB p.2 = true) →
    ∀ p ∈ l.foldl (dimStep G n c o) d, inRangeB p.2 = true
  | [], _, hd => by simpa using hd
  | a :: l, d, hd => by
    rw [List.foldl_cons]
    exact foldl_dimStep_inrange G n c o l _ (dimStep_inrange hd a)

theorem scanDims_inrange {G : PyGraph} {n : String} {c : Option String}
    {o : PyVal} {d : List (Label × Int)}
    (hd : ∀ p ∈ d, inRangeB p.2 = true) :
    ∀ p ∈ scanDims G n c o d, inRangeB p.2 = true :=
  foldl_dimStep_inrange G n c o DIM_ATTRS d hd

theorem cfgStep_inrange {G : PyGraph} {n : String} {o : PyVal}
    {d : List (Label × Int)}
    (hd : ∀ p ∈ d, inRangeB p.2 = true) (c : String) :
    ∀ p ∈ cfgStep G n o d c, inRangeB p.2 = true := by
  unfold cfgStep
  split
  · split
    · exact scanDims_inrange hd
    · exact hd
  · exact hd

theorem foldl_cfgStep_inrange (G : PyGraph) (n : String) (o : PyVal) :
    ∀ (l : List String) (d : List (Label × Int)),
    (∀ p ∈ d, inRangeB p.2 = true) →
    ∀ p ∈ l.foldl (cfgStep G n o) d, inRangeB p.2 = true
  | [], _, hd => by simpa using hd
  | c :: l, d, hd => by
    rw [List.foldl_cons]
    exact foldl_cfgStep_inrange G n o l _ (cfgStep_inrange hd c)

theorem scanObj_inrange {G : PyGraph} {o : PyVal} {d : List (Label × Int)}
    (hd : ∀ p ∈ d, inRangeB p.2 = true) :
    ∀ p ∈ scanObj G o d, inRangeB p.2 = true :=
  foldl_cfgStep_inrange G (pyClassName G o) o CFG_ATTRS _ (scanDims_inrange hd)

theorem foldl_scanObj_inrange (G : PyGraph) :
    ∀ (search : List PyVal) (d : List (Label × Int)),
    (∀ p ∈ d, inRangeB p.2 = true) →
    ∀ p ∈ search.foldl (fun d o => scanObj G o d) d, inRangeB p.2 = true
  | [], _, hd => by simpa using hd
  | o :: l, d, hd => by
    rw [List.foldl_cons]
    exact foldl_scanObj_inrange G l _ (scanObj_inrange hd)

theorem buildFound_inrange {G : PyGraph} {search : List PyVal}
    {p : Label × Int} (hp : p ∈ buildFound G search) : inRangeB p.2 = true :=
  foldl_scanObj_inrange G search [] (by simp) p hp

theorem foldl_closest_pos (est : Int) :
    ∀ (l : List Int) (b : Int), 0 < b → (∀ x ∈ l, 0 < x) →
    0 < l.foldl (fun best x => if |x - est| < |best - est| then x else best) b
  | [], _, hb, _ => hb
  | x :: l, b, hb, hl => by
    rw [List.foldl_cons]
    refine foldl_closest_pos est l _ ?_ (fun y hy => hl y (List.mem_cons_of_mem _ hy))
    by_cases h : |x - est| < |b - est|
    · rw [if_pos h]; exact hl x (List.mem_cons_self _ _)
    · rw [if_neg h]; exact hb

theorem paramEstimate_pos (n : Nat) : 0 < paramEstimate n := by
  unfold paramEstimate closestStandard
  exact foldl_closest_pos _ _ _ (by norm_num) (by decide)

theorem get_model_info_hidden_pos {G : PyGraph} {model : Option PyVal}
    {info : ModelInfo} (h : get_model_info G model = .ok info) :
    ∀ hd, info.hiddenDim = some hd → 0 < hd := by
  intro hd hhd
  cases model with
  | none =>
    simp only [get_model_info] at h
    rw [← Except.ok.inj h] at hhd
    cases hhd
  | some m0 =>
    simp only [get_model_info] at h
    cases hu : unwrap G m0 with
    | error e => rw [hu] at h; cases h
    | ok m =>
      simp only [hu] at h
      cases hs : buildSearch G m with
      | error e => simp only [hs] at h; cases h
      | ok search =>
        simp only [hs] at h
        cases hf : buildFound G search with
        | cons q rest =>
          obtain ⟨q1, q2⟩ := q
          simp only [hf] at h
          rw [← Except.ok.inj h] at hhd
          simp only [Option.some.injEq] at hhd
          have hin : inRangeB q2 = true := by
            have : ((q1, q2) : Label × Int) ∈ buildFound G search := by
              rw [hf]; exact List.mem_cons_self _ _
            exact buildFound_inrange this
          simp only [inRangeB, Bool.and_eq_true, decide_eq_true_eq] at hin
          omega
        | nil =>
          simp only [hf] at h
          cases m with
          | vint k =>
            rw [← Except.ok.inj h] at hhd
            cases hhd
          | vobj i =>
            cases hpn : G.paramsNumel i with
            | none =>
              simp only [hpn] at h
              rw [← Except.ok.inj h] at hhd
              cases hhd
            | some n =>
              simp only [hpn] at h
              rw [← Except.ok.inj h] at hhd
              simp only [Option.some.injEq] at hhd
              rw [← hhd]
              exact paramEstimate_pos n

theorem limitedResult_spec {info : ModelInfo} {w h : Int} {d fps sm c : ℚ}
    {r : ExecResult} (hok : limitedResult info w h d fps sm c = .ok r) :
    fps ≠ 0 ∧
    ∃ maxPhys, 1 ≤ maxPhys ∧
      r = ⟨w, h, snap (min (requestedFrames d fps) maxPhys), fps,
           ((snap (min (requestedFrames d fps) maxPhys) - 1 : Int) : ℚ) / fps,
           some (if info.hiddenDim.isSome then
                   match info.name with
                   | some s => if s = "" then "connected" else s
                   | none => "connected"
                 else "generic"),
           some (info.hiddenDim.getD 1536), requestedFrames d fps⟩ := by
  simp only [limitedResult] at hok
  by_cases hdim : info.hiddenDim.isSome
  · simp only [hdim, if_true] at hok
    by_cases hbpf :
        (TENSOR_COPIES * spatialTokens w h * info.hiddenDim.getD 1536 * 2 : Int) = 0
    · rw [if_pos hbpf] at hok; cases hok
    · simp only [if_neg hbpf] at hok
      by_cases hfps : fps = 0
      · rw [if_pos hfps] at hok; cases hok
      · rw [if_neg hfps] at hok
        refine ⟨hfps, (max 1 (pyTrunc (c * sm /
          ((TENSOR_COPIES * spatialTokens w h * info.hiddenDim.getD 1536 * 2 : Int) : ℚ)))
            - 1) * TEMPORAL_COMPRESSION + 1, ?_, ?_⟩
        · have : 1 ≤ max 1 (pyTrunc (c * sm /
            ((TENSOR_COPIES * spatialTokens w h * info.hiddenDim.getD 1536 * 2 : Int) : ℚ))) :=
            le_max_left _ _
          unfold TEMPORAL_COMPRESSION
          omega
        · rw [if_pos hdim]
          exact (Except.ok.inj hok).symm
  · have hdim2 : info.hiddenDim.isSome = false := by
      cases hh : info.hiddenDim.isSome
      · rfl
      · exact absurd hh hdim
    simp only [hdim2, Bool.false_eq_true, if_false] at hok
    by_cases hbpf :
        (TENSOR_COPIES * spatialTokens w h * info.hiddenDim.getD 1536 * 2 : Int) = 0
    · rw [if_pos hbpf] at hok; cases hok
    · simp only [if_neg hbpf] at hok
      by_cases hfps : fps = 0
      · rw [if_pos hfps] at hok; cases hok
      · rw [if_neg hfps] at hok
        refine ⟨hfps, max 1 (pyTrunc (c * sm /
          ((TENSOR_COPIES * spatialTokens w h * info.hiddenDim.getD 1536 * 2 : Int) : ℚ))),
          le_max_left _ _, ?_⟩
        simp only [hdim2, Bool.false_eq_true, if_false]
        exact (Except.ok.inj hok).symm

/-- The exact frame formula of the device-present path: the latent-frame
conversion is applied exactly when introspection produced a hidden
dimension (from any source), the plain budget otherwise. -/
theorem limitedResult_frames_formula {info : ModelInfo} {w h : Int}
    {d fps sm c : ℚ} {r : ExecResult}
    (hok : limitedResult info w h d fps sm c = .ok r) :
    r.frames = snap (min (requestedFrames d fps)
      (if info.hiddenDim.isSome then
        (max 1 (pyTrunc (c * sm /
          ((TENSOR_COPIES * spatialTokens w h * info.hiddenDim.getD 1536 * 2 : Int) : ℚ)))
          - 1) * TEMPORAL_COMPRESSION + 1
       else
        max 1 (pyTrunc (c * sm /
          ((TENSOR_COPIES * spatialTokens w h * info.hiddenDim.getD 1536 * 2 : Int) : ℚ))))) := by
  simp only [limitedResult] at hok
  by_cases hdim : info.hiddenDim.isSome
  · simp only [hdim, if_true] at hok ⊢
    by_cases hbpf :
        (TENSOR_COPIES * spatialTokens w h * info.hiddenDim.getD 1536 * 2 : Int) = 0
    · rw [if_pos hbpf] at hok; cases hok
    · simp only [if_neg hbpf] at hok
      by_cases hfps : fps = 0
      · rw [if_pos hfps] at hok; cases hok
      · rw [if_neg hfps] at hok
        rw [← Except.ok.inj hok]
  · have hdim2 : info.hiddenDim.isSome = false := by
      cases hh : info.hiddenDim.isSome
      · rfl
      · exact absurd hh hdim
    simp only [hdim2, Bool.false_eq_true, if_false] at hok ⊢
    by_cases hbpf :
        (TENSOR_COPIES * spatialTokens w h * info.hiddenDim.getD 1536 * 2 : Int) = 0
    · rw [if_pos hbpf] at hok; cases hok
    · simp only [if_neg hbpf] at hok
      by_cases hfps : fps = 0
      · rw [if_pos hfps] at hok; cases hok
      · rw [if_neg hfps] at hok
        rw [← Except.ok.inj hok]

/-- Whenever `execute` succeeds, the returned frame count is at least 1 and
at most the requested frame count. -/
theorem execute_ok_bounds {G : PyGraph} {model : Option PyVal} {w h : Int}
    {d fps sm : ℚ} {cap : Option ℚ} {r : ExecResult}
    (hex : execute G model w h d fps sm cap = .ok r) :
    1 ≤ r.frames ∧ r.frames ≤ requestedFrames d fps := by
  cases cap with
  | none =>
    simp only [execute] at hex
    rw [← Except.ok.inj hex]
    exact ⟨requestedFrames_pos d fps, le_refl _⟩
  | some c =>
    cases hgmi : get_model_info G model with
    | error e => rw [execute_some_err w h d fps sm c hgmi] at hex; cases hex
    | ok info =>
      rw [execute_some_eq w h d fps sm c hgmi] at hex
      obtain ⟨-, maxPhys, hmp, hr⟩ := limitedResult_spec hex
      rw [hr]
      constructor
      · exact snap_pos _
      · calc snap (min (requestedFrames d fps) maxPhys)
            ≤ min (requestedFrames d fps) maxPhys :=
              snap_le_self _ (le_min (requestedFrames_pos d fps) hmp)
          _ ≤ requestedFrames d fps := min_le_left _ _

/-! ### Head stability of the `found` dict (first hit wins) -/

theorem dictInsert_cons_ne {k : Label} {v : Int} {d : List (Label × Int)}
    {k2 : Label} (v2 : Int) (hne : k2 ≠ k) :
    ∃ d2, dictInsert ((k, v) :: d) k2 v2 = (k, v) :: d2 := by
  unfold dictInsert
  split
  · refine ⟨(d.map fun p => if p.1 = k2 then (k2, v2) else p), ?_⟩
    simp only [List.map_cons]
    rw [if_neg (by simpa using fun hkk => hne hkk.symm)]
  · exact ⟨d ++ [(k2, v2)], rfl⟩

theorem dimStep_cons {G : PyGraph} {n : String} {c : Option String} {o : PyVal}
    {k : Label} {v : Int} {d : List (Label × Int)} (a : String)
    (hne : Label.mk n c a ≠ k) :
    ∃ d2, dimStep G n c o ((k, v) :: d) a = (k, v) :: d2 := by
  unfold dimStep
  cases safeGet G o a with
  | none => exact ⟨d, rfl⟩
  | some u =>
    cases u with
    | vobj i => exact ⟨d, rfl⟩
    | vint x =>
      dsimp only
      by_cases hx : inRangeB x
      · rw [if_pos hx]; exact dictInsert_cons_ne x hne
      · rw [if_neg hx]; exact ⟨d, rfl⟩

theorem foldl_dimStep_cons (G : PyGraph) (n : String) (c : Option String)
    (o : PyVal) (k : Label) (v : Int) :
    ∀ (l : List String) (d : List (Label × Int)),
    (∀ a ∈ l, Label.mk n c a ≠ k) →
    ∃ d2, l.foldl (dimStep G n c o) ((k, v) :: d) = (k, v) :: d2
  | [], d, _ => ⟨d, rfl⟩
  | a :: l, d, hl => by
    rw [List.foldl_cons]
    obtain ⟨d2, hd2⟩ := dimStep_cons (G := G) (o := o) (v := v) (d := d) a
      (hl a (List.mem_cons_self _ _))
    rw [hd2]
    exact foldl_dimStep_cons G n c o k v l d2
      (fun b hb => hl b (List.mem_cons_of_mem _ hb))

theorem scanDims_cons {G : PyGraph} {n : String} {c : Option String}
    {o : PyVal} {k : Label} {v : Int} {d : List (Label × Int)}
    (hl : ∀ a ∈ DIM_ATTRS, Label.mk n c a ≠ k) :
    ∃ d2, scanDims G n c o ((k, v) :: d) = (k, v) :: d2 :=
  foldl_dimStep_cons G n c o k v DIM_ATTRS d hl

theorem cfgStep_cons {G : PyGraph} {n : String} {o : PyVal} {k : Label}
    {v : Int} {d : List (Label × Int)} (hk : k.cfg = none) (c : String) :
    ∃ d2, cfgStep G n o ((k, v) :: d) c = (k, v) :: d2 := by
  unfold cfgStep
  cases safeGet G o c with
  | none => exact ⟨d, rfl⟩
  | some cfgv =>
    dsimp only
    by_cases ht : pyTruthy G cfgv
    · rw [if_pos ht]
      refine scanDims_cons (fun a _ hak => ?_)
      rw [← hak] at hk
      cases hk
    · rw [if_neg ht]; exact ⟨d, rfl⟩

theorem foldl_cfgStep_cons (G : PyGraph) (n : String) (o : PyVal) (k : Label)
    (v : Int) (hk : k.cfg = none) :
    ∀ (l : List String) (d : List (Label × Int)),
    ∃ d2, l.foldl (cfgStep G n o) ((k, v) :: d) = (k, v) :: d2
  | [], d => ⟨d, rfl⟩
  | c :: l, d => by
    rw [List.foldl_cons]
    obtain ⟨d2, hd2⟩ := cfgStep_cons (G := G) (n := n) (o := o) (v := v) (d := d) hk c
    rw [hd2]
    exact foldl_cfgStep_cons G n o k v hk l d2

theorem scanObj_cons {G : PyGraph} {o : PyVal} {k : Label} {v : Int}
    {d : List (Label × Int)} (hk : k.cfg = none)
    (hcn : pyClassName G o ≠ k.objName) :
    ∃ d2, scanObj G o ((k, v) :: d) = (k, v) :: d2 := by
  simp only [scanObj]
  obtain ⟨d2, hd2⟩ := scanDims_cons (G := G) (c := none) (o := o) (k := k) (v := v)
    (d := d) (n := pyClassName G o) (fun a _ hak => hcn (by rw [← hak]))
  rw [hd2]
  exact foldl_cfgStep_cons G (pyClassName G o) o k v hk CFG_ATTRS d2

theorem foldl_scanObj_cons (G : PyGraph) (k : Label) (v : Int)
    (hk : k.cfg = none) :
    ∀ (l : List PyVal) (d : List (Label × Int)),
    (∀ o ∈ l, pyClassName G o ≠ k.objName) →
    ∃ d2, l.foldl (fun d o => scanObj G o d) ((k, v) :: d) = (k, v) :: d2
  | [], d, _ => ⟨d, rfl⟩
  | o :: l, d, hl => by
    rw [List.foldl_cons]
    obtain ⟨d2, hd2⟩ := scanObj_cons (G := G) (o := o) (v := v) (d := d) hk
      (hl o (List.mem_cons_self _ _))
    rw [hd2]
    exact foldl_scanObj_cons G k v hk l d2
      (fun b hb => hl b (List.mem_cons_of_mem _ hb))

/-- If the unwrapped model itself exposes an in-range `hidden_size` directly,
the head of `found` is that hit. -/
theorem buildFound_head {G : PyGraph} {m : PyVal} {rest : List PyVal} {v : Int}
    (hv : safeGet G m "hidden_size" = some (.vint v))
    (hr : inRangeB v = true)
    (hcn : ∀ o ∈ rest, pyClassName G o ≠ pyClassName G m) :
    ∃ d2, buildFound G (m :: rest) =
      (Label.mk (pyClassName G m) none "hidden_size", v) :: d2 := by
  have h1 : dimStep G (pyClassName G m) none m [] "hidden_size" =
      [(Label.mk (pyClassName G m) none "hidden_size", v)] := by
    unfold dimStep
    rw [hv]
    dsimp only
    rw [if_pos hr]
    rfl
  have h2 : ∃ dA, scanDims G (pyClassName G m) none m [] =
      (Label.mk (pyClassName G m) none "hidden_size", v) :: dA := by
    unfold scanDims
    rw [show DIM_ATTRS = "hidden_size" :: ["dim", "embed_dim", "hidden_dim",
          "d_model", "inner_dim", "width", "model_dim"] from rfl,
        List.foldl_cons, h1]
    refine foldl_dimStep_cons G _ none m _ v _ [] ?_
    intro a ha hak
    have ha2 : a = "hidden_size" := congrArg Label.attr hak
    subst ha2
    revert ha
    decide
  obtain ⟨dA, hA⟩ := h2
  have h3 : ∃ dB, scanObj G m [] =
      (Label.mk (pyClassName G m) none "hidden_size", v) :: dB := by
    simp only [scanObj]
    rw [hA]
    exact foldl_cfgStep_cons G _ m _ v rfl CFG_ATTRS dA
  obtain ⟨dB, hB⟩ := h3
  unfold buildFound
  rw [List.foldl_cons]
  rw [hB]
  exact foldl_scanObj_cons G _ v rfl rest dB hcn

/-- Inverting the introspector when the `found` dict is known to start with a
given hit: the returned hidden dimension is that first hit. -/
theorem get_model_info_of_head {G : PyGraph} {m0 m : PyVal}
    {rest : List PyVal} {v : Int}
    (hu : unwrap G m0 = .ok m)
    (hs : buildSearch G m = .ok (m :: rest))
    (hv : safeGet G m "hidden_size" = some (.vint v))
    (hr : inRangeB v = true)
    (hcn : ∀ o ∈ rest, pyClassName G o ≠ pyClassName G m) :
    (get_model_info G (some m0)).map ModelInfo.hiddenDim = .ok (some v) := by
  obtain ⟨d2, hd2⟩ := buildFound_head hv hr hcn
  simp only [get_model_info, hu, hs, hd2]
  rfl

/-! ### Success of the introspector when plain attribute accesses succeed -/

theorem pyGetattr_ok {G : PyGraph} (hG : ∀ i a, (G.attrs i a).isSome = true)
    (v : PyVal) (a : String) : ∃ r, pyGetattr G v a = .ok r := by
  cases v with
  | vint n => exact ⟨none, rfl⟩
  | vobj i =>
    cases hia : G.attrs i a with
    | none =>
      have := hG i a
      rw [hia] at this
      cases this
    | some r => exact ⟨r, by simp [pyGetattr, hia]⟩

theorem unwrapStep_ok {G : PyGraph} (hG : ∀ i a, (G.attrs i a).isSome = true)
    (m : PyVal) (a : String) : ∃ m2, unwrapStep G m a = .ok m2 := by
  obtain ⟨r, hr⟩ := pyGetattr_ok hG m a
  exact ⟨r.getD m, by simp [unwrapStep, hr, Except.bind]⟩

theorem foldlM_unwrapStep_ok {G : PyGraph}
    (hG : ∀ i a, (G.attrs i a).isSome = true) :
    ∀ (l : List String) (m : PyVal), ∃ m2, l.foldlM (unwrapStep G) m = .ok m2
  | [], m => ⟨m, rfl⟩
  | a :: l, m => by
    obtain ⟨m1, hm1⟩ := unwrapStep_ok hG m a
    obtain ⟨m2, hm2⟩ := foldlM_unwrapStep_ok hG l m1
    exact ⟨m2, by rw [List.foldlM_cons, hm1]; simpa [Except.bind] using hm2⟩

theorem addSearch_ok {G : PyGraph} (hG : ∀ i a, (G.attrs i a).isSome = true)
    (m : PyVal) (acc : List PyVal) (a : String) :
    ∃ l2, addSearch G m acc a = .ok l2 := by
  obtain ⟨r, hr⟩ := pyGetattr_ok hG m a
  cases r with
  | none => exact ⟨acc, by simp [addSearch, hr, Except.bind]⟩
  | some s =>
    exact ⟨if pyIs s m then acc else acc ++ [s],
           by simp [addSearch, hr, Except.bind]⟩

theorem foldlM_addSearch_ok {G : PyGraph}
    (hG : ∀ i a, (G.attrs i a).isSome = true) (m : PyVal) :
    ∀ (l : List String) (acc : List PyVal),
    ∃ l2, l.foldlM (addSearch G m) acc = .ok l2
  | [], acc => ⟨acc, rfl⟩
  | a :: l, acc => by
    obtain ⟨acc1, hacc1⟩ := addSearch_ok hG m acc a
    obtain ⟨l2, hl2⟩ := foldlM_addSearch_ok hG m l acc1
    exact ⟨l2, by rw [List.foldlM_cons, hacc1]; simpa [Except.bind] using hl2⟩

/-! ### General claim theorems -/

/-- C6: for every budget request on which `execute` returns a result, the
returned frame count satisfies `1 ≤ capped_frames ≤ requested_frames`, where
`requested_frames = max(1, round(duration × fps) + 1)`. -/
theorem c6_frames_bounds {G : PyGraph} {model : Option PyVal} {w h : Int}
    {d fps sm : ℚ} {cap : Option ℚ} {r : ExecResult}
    (hex : execute G model w h d fps sm cap = .ok r) :
    1 ≤ r.frames ∧ r.frames ≤ requestedFrames d fps :=
  execute_ok_bounds hex

/-- C2 (amended): on the limited path — device capacity present — every
returned frame count satisfies `(capped_frames − 1) mod STRIDE = 0` with
`STRIDE = 4`; the no-device path returns `requested_frames` unsnapped. -/
theorem c2_stride_limited {G : PyGraph} {model : Option PyVal} {w h : Int}
    {d fps sm c : ℚ} {r : ExecResult}
    (hex : execute G model w h d fps sm (some c) = .ok r) :
    (r.frames - 1) % TEMPORAL_COMPRESSION = 0 := by
  cases hgmi : get_model_info G model with
  | error e => rw [execute_some_err w h d fps sm c hgmi] at hex; cases hex
  | ok info =>
    rw [execute_some_eq w h d fps sm c hgmi] at hex
    obtain ⟨-, mp, -, hr⟩ := limitedResult_spec hex
    rw [hr]
    exact snap_stride _

/-- C10: whenever introspection yields no hidden dimension, the budgeter
substitutes the fixed fallback `hidden_dim = 1536` and labels the model
`"generic"` in the diagnostics. -/
theorem c10_generic_fallback {G : PyGraph} {model : Option PyVal} {w h : Int}
    {d fps sm c : ℚ} {info : ModelInfo} {r : ExecResult}
    (hinfo : get_model_info G model = .ok info)
    (hnone : info.hiddenDim = none)
    (hex : execute G model w h d fps sm (some c) = .ok r) :
    r.hiddenDim = some 1536 ∧ r.modelLabel = some "generic" := by
  rw [execute_some_eq w h d fps sm c hinfo] at hex
  obtain ⟨-, mp, -, hr⟩ := limitedResult_spec hex
  rw [hr]
  simp [hnone]

/-- C4 (amended): when no device capacity is available, `execute` skips all
limiting and returns `capped_frames = requested_frames` together with the
caller-supplied duration unchanged (not `(requested_frames − 1) / fps`). -/
theorem c4_no_limit_path (G : PyGraph) (model : Option PyVal) (w h : Int)
    (d fps sm : ℚ) :
    execute G model w h d fps sm none =
      .ok ⟨w, h, requestedFrames d fps, fps, d, none, none,
           requestedFrames d fps⟩ := rfl

/-- C3 (amended): `execute` performs no input validation; with a device
present, a width below 8 makes `spatial_tokens` zero and the budget division
raises `ZeroDivisionError` (whatever the other inputs are). -/
theorem c3_zero_division {G : PyGraph} {model : Option PyVal} (w h : Int)
    (d fps sm c : ℚ) (hw0 : 0 ≤ w) (hw8 : w < 8)
    (hok : ∃ info, get_model_info G model = .ok info) :
    execute G model w h d fps sm (some c) = .error PyErr.zeroDiv := by
  obtain ⟨info, hinfo⟩ := hok
  rw [execute_some_eq w h d fps sm c hinfo]
  have hsp : spatialTokens w h = 0 := by
    unfold spatialTokens
    rw [fdiv_eight]
    have hz : w / 8 = 0 := by omega
    rw [hz, zero_mul]
  by_cases hdim : info.hiddenDim.isSome
  · simp [limitedResult, hdim, hsp]
  · simp [limitedResult, hdim, hsp]

/-- C7: with all other inputs fixed and a nonnegative safety margin, a larger
device capacity never yields fewer frames, and the result never exceeds
`requested_frames`. -/
theorem c7_capacity_monotone {G : PyGraph} {model : Option PyVal} {w h : Int}
    {d fps sm c1 c2 : ℚ} {r1 r2 : ExecResult}
    (hw : 8 ≤ w) (hh : 8 ≤ h) (hsm : 0 ≤ sm) (hc : c1 ≤ c2)
    (h1 : execute G model w h d fps sm (some c1) = .ok r1)
    (h2 : execute G model w h d fps sm (some c2) = .ok r2) :
    r1.frames ≤ r2.frames ∧ r2.frames ≤ requestedFrames d fps := by
  refine ⟨?_, (execute_ok_bounds h2).2⟩
  cases hgmi : get_model_info G model with
  | error e => rw [execute_some_err w h d fps sm c1 hgmi] at h1; cases h1
  | ok info =>
    rw [execute_some_eq w h d fps sm c1 hgmi] at h1
    rw [execute_some_eq w h d fps sm c2 hgmi] at h2
    rw [limitedResult_frames_formula h1, limitedResult_frames_formula h2]
    apply snap_mono
    apply min_le_min (le_refl _)
    have hhid : 0 < info.hiddenDim.getD 1536 := by
      cases hdd : info.hiddenDim with
      | none => norm_num
      | some hdim =>
        have := get_model_info_hidden_pos hgmi hdim hdd
        simpa using this
    have hsp : 0 < spatialTokens w h := by
      unfold spatialTokens
      rw [fdiv_eight, fdiv_eight]
      have hq1 : 1 ≤ w / 8 := by omega
      have hq2 : 1 ≤ h / 8 := by omega
      nlinarith
    have hbpos :
        (0 : Int) < TENSOR_COPIES * spatialTokens w h * info.hiddenDim.getD 1536 * 2 := by
      have h5 : (0 : Int) < TENSOR_COPIES := by norm_num [TENSOR_COPIES]
      have := mul_pos (mul_pos (mul_pos h5 hsp) hhid) (by norm_num : (0 : Int) < 2)
      exact this
    have hbQ : (0 : ℚ) <
        ((TENSOR_COPIES * spatialTokens w h * info.hiddenDim.getD 1536 * 2 : Int) : ℚ) := by
      exact_mod_cast hbpos
    have hbud : c1 * sm ≤ c2 * sm := mul_le_mul_of_nonneg_right hc hsm
    have hdivle : c1 * sm /
        ((TENSOR_COPIES * spatialTokens w h * info.hiddenDim.getD 1536 * 2 : Int) : ℚ) ≤
        c2 * sm /
        ((TENSOR_COPIES * spatialTokens w h * info.hiddenDim.getD 1536 * 2 : Int) : ℚ) :=
      (div_le_div_iff_of_pos_right hbQ).mpr hbud
    have htr := pyTrunc_mono hdivle
    by_cases hdimb : info.hiddenDim.isSome
    · simp only [hdimb, if_true]
      have hmx := max_le_max (le_refl (1 : Int)) htr
      unfold TEMPORAL_COMPRESSION
      omega
    · have hdim2 : info.hiddenDim.isSome = false := by
        cases hhh : info.hiddenDim.isSome
        · rfl
        · exact absurd hhh hdimb
      simp only [hdim2, Bool.false_eq_true, if_false]
      exact max_le_max (le_refl _) htr

/-- C1 (amended): the generic no-compression formula is used exactly when
introspection produced no hidden dimension at all; a hidden dimension from
any source — direct, config, or the parameter-count estimate — is treated as
a detected model and budgeted with the latent-frame formula. -/
theorem c1_formula_by_source {G : PyGraph} {model : Option PyVal} {w h : Int}
    {d fps sm c : ℚ} {info : ModelInfo} {r : ExecResult}
    (hinfo : get_model_info G model = .ok info)
    (hex : execute G model w h d fps sm (some c) = .ok r) :
    (info.hiddenDim = none →
      r.frames = specGenericFrames w h 1536 d fps (c * sm)) ∧
    (∀ hdim, info.hiddenDim = some hdim →
      r.frames = snap (min (requestedFrames d fps)
        ((max 1 (pyTrunc (c * sm /
             ((TENSOR_COPIES * spatialTokens w h * hdim * 2 : Int) : ℚ))) - 1)
           * TEMPORAL_COMPRESSION + 1))) := by
  rw [execute_some_eq w h d fps sm c hinfo] at hex
  have hf := limitedResult_frames_formula hex
  constructor
  · intro hnone
    rw [hf]
    simp only [hnone, Option.isSome_none, Bool.false_eq_true, if_false,
               Option.getD_none]
    rfl
  · intro hdim hsome
    rw [hf]
    simp only [hsome, Option.isSome_some, if_true, Option.getD_some]

/-- C5 (amended): the introspector scans each search-set object's direct
width attributes and then that same object's configuration accessors before
moving on; the first recorded hit wins.  In particular, a direct in-range
`hidden_size` on the unwrapped model itself beats every configuration value
and every later object (when no later search object shares its class name). -/
theorem c5_direct_first_priority {G : PyGraph} {m0 m : PyVal}
    {rest : List PyVal} {v : Int}
    (hu : unwrap G m0 = .ok m)
    (hs : buildSearch G m = .ok (m :: rest))
    (hv : safeGet G m "hidden_size" = some (.vint v))
    (hr : inRangeB v = true)
    (hcn : ∀ o ∈ rest, pyClassName G o ≠ pyClassName G m) :
    (get_model_info G (some m0)).map ModelInfo.hiddenDim = .ok (some v) :=
  get_model_info_of_head hu hs hv hr hcn

/-- C9 (amended): the introspector never raises provided the plain attribute
accesses used for unwrapping and search-set construction do not raise;
failures inside `_safe_getattr` and parameter enumeration are always
absorbed, and an absent handle yields `(name = absent, hidden_dim = absent)`
without walking anything. -/
theorem c9_no_raise {G : PyGraph} (model : Option PyVal)
    (hG : ∀ i a, (G.attrs i a).isSome = true) :
    ∃ info, get_model_info G model = .ok info ∧
      (model = none → info = ⟨none, none, []⟩) := by
  cases model with
  | none => exact ⟨⟨none, none, []⟩, rfl, fun _ => rfl⟩
  | some m0 =>
    obtain ⟨m, hm⟩ := foldlM_unwrapStep_ok hG UNWRAP_ATTRS m0
    obtain ⟨search, hsearch⟩ := foldlM_addSearch_ok hG m SEARCH_ATTRS [m]
    have hm2 : unwrap G m0 = .ok m := hm
    have hs2 : buildSearch G m = .ok search := hsearch
    have hexist : ∃ info, get_model_info G (some m0) = .ok info := by
      simp only [get_model_info, hm2, hs2]
      cases hf : buildFound G search with
      | cons q rest => exact ⟨_, rfl⟩
      | nil =>
        cases m with
        | vint k => exact ⟨_, rfl⟩
        | vobj i =>
          cases hpn : G.paramsNumel i with
          | some n => simp only [hpn]; exact ⟨_, rfl⟩
          | none => simp only [hpn]; exact ⟨_, rfl⟩
    obtain ⟨info, hinfo⟩ := hexist
    exact ⟨info, hinfo, fun hcon => by cases hcon⟩

/-! ### Concrete evaluations: counterexamples, the end-to-end test, witnesses.
The core `Rat` operations are `@[irreducible]` by default, which blocks
kernel evaluation; they are made semireducible locally so that `decide` can
run the embedded code on concrete inputs. -/

section ConcreteEvaluations

attribute [local semireducible] Rat.mul Rat.add Rat.sub Rat.inv Rat.ofScientific

/-- C8: the end-to-end example — `width=832, height=480, fps=16, duration=10,
safety_margin=0.95, device_capacity_bytes = 16·2^30`, `hidden_size = 1536`
found as a direct attribute hit — produces `requested_frames = 161`,
`spatial_tokens = 6240`, `bytes_per_latent_frame = 95846400`,
`max_latent_frames = 170`, `max_physical_frames = 677`, and returns
`capped_frames = 161` with `capped_duration = 10.0`. -/
theorem c8_end_to_end :
    get_model_info G8 (some (.vobj 0)) =
      .ok ⟨some "WanModel", some 1536,
           [.hit ⟨"WanModel", none, "hidden_size"⟩ 1536]⟩ ∧
    requestedFrames 10 16 = 161 ∧
    spatialTokens 832 480 = 6240 ∧
    TENSOR_COPIES * spatialTokens 832 480 * 1536 * 2 = 95846400 ∧
    max 1 (pyTrunc ((17179869184 * (19/20) : ℚ) / (95846400 : ℚ))) = 170 ∧
    ((170 : Int) - 1) * TEMPORAL_COMPRESSION + 1 = 677 ∧
    min (161 : Int) 677 = 161 ∧ snap 161 = 161 ∧
    execute G8 (some (.vobj 0)) 832 480 10 16 (19/20) (some 17179869184) =
      .ok ⟨832, 480, 161, 16, 10, some "WanModel", some 1536, 161⟩ := by
  refine ⟨?_, ?_, ?_, ?_, ?_, ?_, ?_, ?_, ?_⟩ <;> decide

set_option maxRecDepth 40000 in
/-- C1 counterexample: a handle with no width attribute anywhere and an
enumerable parameter count estimating `hidden_dim = 1536`
(parameter-estimate source, visible in the trace) is budgeted with the
latent-frame formula — at 1 GiB capacity and safety margin 1 the code
returns 41 frames, while the no-compression formula the claim prescribes
for this source yields 9. -/
theorem c1_counterexample :
    get_model_info Gest (some (.vobj 0)) =
      .ok ⟨some "Mystery", some 1536, [.estimate 1536]⟩ ∧
    (execute Gest (some (.vobj 0)) 832 480 10 16 1
        (some 1073741824)).map ExecResult.frames = .ok 41 ∧
    specGenericFrames 832 480 1536 10 16 (1073741824 * 1) = 9 ∧
    (41 : Int) ≠ 9 := by
  refine ⟨?_, ?_, ?_, ?_⟩ <;> decide

set_option maxRecDepth 40000 in
/-- C1 witness: the amended formula instantiated on the parameter-estimate
handle above. -/
theorem c1_formula_by_source_witness :
    (41 : Int) = snap (min (requestedFrames 10 16)
      ((max 1 (pyTrunc ((1073741824 : ℚ) * 1 /
           ((TENSOR_COPIES * spatialTokens 832 480 * 1536 * 2 : Int) : ℚ))) - 1)
         * TEMPORAL_COMPRESSION + 1)) :=
  (c1_formula_by_source
    (by decide : get_model_info Gest (some (.vobj 0)) =
      .ok ⟨some "Mystery", some 1536, [.estimate 1536]⟩)
    (by decide : execute Gest (some (.vobj 0)) 832 480 10 16 1
        (some 1073741824) =
      .ok ⟨832, 480, 41, 16, 5/2, some "Mystery", some 1536, 161⟩)).2 1536 rfl

/-- C2 counterexample: on the no-device path nothing is snapped —
`duration = 0.1 s`, `fps = 16` requests `round(1.6)+1 = 3` frames, and
`execute` returns 3, which violates `(capped_frames − 1) mod 4 = 0`. -/
theorem c2_counterexample :
    (execute emptyG none 832 480 (1/10) 16 (19/20) none).map
        ExecResult.frames = .ok 3 ∧
    ¬ (((3 : Int) - 1) % TEMPORAL_COMPRESSION = 0) := by
  refine ⟨?_, ?_⟩ <;> decide

/-- C2 witness: the stride invariant on a concrete limited-path run. -/
theorem c2_stride_limited_witness :
    ((161 : Int) - 1) % TEMPORAL_COMPRESSION = 0 :=
  c2_stride_limited
    (by decide : execute emptyG none 832 480 10 16 (19/20)
        (some 17179869184) =
      .ok ⟨832, 480, 161, 16, 10, some "generic", some 1536, 161⟩)

/-- C3 counterexample: `width = 4` with a device present does not produce an
input-validation error — it crashes with a `ZeroDivisionError` (the spatial
token count is `4 ÷ 8 = 0`, so `bytes_per_frame = 0`). -/
theorem c3_counterexample :
    execute emptyG none 4 480 10 16 (19/20) (some 17179869184) =
      .error PyErr.zeroDiv := by
  decide

/-- C3 witness: the amended statement instantiated at other inputs. -/
theorem c3_zero_division_witness :
    execute emptyG none 5 480 7 3 (1/2) (some 100) = .error PyErr.zeroDiv :=
  c3_zero_division 5 480 7 3 (1/2) 100 (by norm_num) (by norm_num)
    ⟨⟨none, none, []⟩, rfl⟩

/-- C4 counterexample: on the no-device path with `duration = 0.1, fps = 16`
the code returns `capped_frames = 3 = requested_frames` but reports the
caller's duration `0.1` unchanged, not `(3 − 1)/16 = 0.125` as the claim
states. -/
theorem c4_counterexample :
    execute emptyG none 832 480 (1/10) 16 (19/20) none =
      .ok ⟨832, 480, 3, 16, 1/10, none, none, 3⟩ ∧
    requestedFrames (1/10) 16 = 3 ∧
    ((3 : ℚ) - 1) / 16 = 1/8 ∧ (1/10 : ℚ) ≠ 1/8 := by
  refine ⟨?_, ?_, ?_, ?_⟩ <;> decide

/-- C5 counterexample: search set `[Outer, Inner]` where `Outer` has only a
config hit `hidden_size = 128` and `Inner` has a direct `hidden_size = 1536`.
The two-phase direct-then-config search of the claim returns 1536; the code
scans each object's config before moving to the next object and returns 128. -/
theorem c5_counterexample :
    buildSearch G5 (.vobj 0) = .ok [.vobj 0, .vobj 1] ∧
    safeGet G5 (.vobj 1) "hidden_size" = some (.vint 1536) ∧
    inRangeB 1536 = true ∧
    specTwoPhaseHidden G5 [.vobj 0, .vobj 1] = some 1536 ∧
    (get_model_info G5 (some (.vobj 0))).map ModelInfo.hiddenDim =
      .ok (some 128) ∧
    some (128 : Int) ≠ some 1536 := by
  refine ⟨?_, ?_, ?_, ?_, ?_, ?_⟩ <;> decide

/-- C5 witness: a direct in-range `hidden_size` on the unwrapped model wins. -/
theorem c5_direct_first_priority_witness :
    (get_model_info G8 (some (.vobj 0))).map ModelInfo.hiddenDim =
      .ok (some 1536) :=
  @c5_direct_first_priority G8 (.vobj 0) (.vobj 0) [] 1536
    (by decide) (by decide) (by decide) (by decide) (by simp)

/-- C6 witness: the frame-count bounds on a concrete run. -/
theorem c6_frames_bounds_witness :
    1 ≤ (161 : Int) ∧ (161 : Int) ≤ requestedFrames 10 16 :=
  c6_frames_bounds
    (by decide : execute emptyG none 832 480 10 16 (19/20) none =
      .ok ⟨832, 480, 161, 16, 10, none, none, 161⟩)

/-- C7 witness: 1 GiB yields 37 frames, 16 GiB yields 161 frames. -/
theorem c7_capacity_monotone_witness :
    (37 : Int) ≤ 161 ∧ (161 : Int) ≤ requestedFrames 10 16 :=
  c7_capacity_monotone (by norm_num) (by norm_num) (by norm_num)
    (by norm_num)
    (by decide : execute G8 (some (.vobj 0)) 832 480 10 16 (19/20)
        (some 1073741824) =
      .ok ⟨832, 480, 37, 16, 9/4, some "WanModel", some 1536, 161⟩)
    (by decide : execute G8 (some (.vobj 0)) 832 480 10 16 (19/20)
        (some 17179869184) =
      .ok ⟨832, 480, 161, 16, 10, some "WanModel", some 1536, 161⟩)

/-- C9 counterexample: a handle whose `model` attribute access raises an
exception other than `AttributeError` makes `_get_model_info` propagate the
exception (plain `getattr` with a default swallows only `AttributeError`). -/
theorem c9_counterexample :
    get_model_info Gbad (some (.vobj 0)) = .error PyErr.attrRaise := by
  decide

/-- C9 witness: on a handle whose plain accesses all succeed, and on the
absent handle, the introspector returns a result. -/
theorem c9_no_raise_witness :
    ∃ info, get_model_info G8 none = .ok info ∧
      ((none : Option PyVal) = none → info = ⟨none, none, []⟩) :=
  c9_no_raise none (fun _ _ => rfl)

/-- C10 witness: an absent handle with a device present uses the 1536
fallback and the `"generic"` label. -/
theorem c10_generic_fallback_witness :
    some (1536 : Int) = some 1536 ∧ some "generic" = some "generic" :=
  @c10_generic_fallback emptyG none 832 480 10 16 (19/20) 17179869184
    ⟨none, none, []⟩ ⟨832, 480, 161, 16, 10, some "generic", some 1536, 161⟩
    rfl rfl (by decide)

end ConcreteEvaluations
